import Mathlib

/-!
Verification development for the matchup-matrix / bankroll-backtesting
pipeline.  The definitions below are shallow embeddings of the JavaScript
sources:

* `simulateStrategy`, `computeStake`, `heroFilterSatisfied`, `getFibNumber`,
  `buildCombos`, `computeAdvantage`, `computeTeamCounts`, `heroNamesToIds`,
  `loadMatches` — from `download_recent_matches.js`;
* `heroScore` — from `run_delta_pct_custom.js` / `delta_pct_strategy.js`;
* `execute` (`dpStep` / `dpRun`) — from `run_delta_pct_custom.js`;
* `pairUpdate` / `buildPairStats` — from `build_cs_matrix.js`.

JavaScript numbers are modelled as rationals (`ℚ`), counters as naturals,
the Fibonacci step counter as an integer (it is compared and decremented
in the source, so its non-negativity is a theorem, not a typing artifact).
-/

namespace DfTest

/-- Staking-policy variants accepted by `computeStake`
(`combo.stake_type` in the source: 'flat', 'pct_bankroll', 'fibonacci'). -/
inductive StakeType where
  | flat
  | pctBankroll
  | fibonacci
deriving DecidableEq, Repr

/-- Hero-filter variants ('none', '4+4-', '5+5-'). -/
inductive HeroFilter where
  | noFilter
  | fourFour
  | fiveFive
deriving DecidableEq, Repr

/-- Odds-condition variants ('any', 'underdog', 'favorite'). -/
inductive OddsCond where
  | anyOdds
  | underdog
  | favorite
deriving DecidableEq, Repr

/-- Market odds relation of the delta-favored side, as computed by
`classifyOddsRelation` ('favorite', 'underdog' or 'any' on ties). -/
inductive OddsRel where
  | anyRel
  | favorite
  | underdog
deriving DecidableEq, Repr

/-- A strategy configuration (the objects pushed by `buildCombos`). -/
structure Combo where
  strategy_group : String
  stake_type : StakeType
  flat_amount : ℚ
  percent : ℚ
  unit : ℚ
  hero_filter : HeroFilter
  odds_condition : OddsCond
deriving DecidableEq, Repr

/-- A preprocessed match record as produced by `loadMatches` in
`download_recent_matches.js` (the objects pushed onto `matches`). -/
structure Match where
  deltaAbs : ℚ
  deltaFavTeam : String
  deltaFavIsTeam1 : Bool
  favOdds : ℚ
  dogOdds : ℚ
  oddsRelation : OddsRel
  winner : String
  team1Pos : ℕ
  team1Neg : ℕ
  team2Pos : ℕ
  team2Neg : ℕ
deriving DecidableEq, Repr

/-- Source `INITIAL_BANK` in the source. -/
def INITIAL_BANK : ℚ := 1000

/-- Source `MAX_BET` in the source. -/
def MAX_BET : ℚ := 10000

/-- Source `DELTA_THRESHOLDS` in the source. -/
def DELTA_THRESHOLDS : List ℚ := [5, 10, 15, 20, 25, 30, 35, 40, 45, 50, 75]

/-- The pure Fibonacci sequence 1, 1, 2, 3, 5, … (the sequence the memo
table `fibCache = [1, 1]` of the source unfolds to). -/
def fib : ℕ → ℕ
  | 0 => 1
  | 1 => 1
  | n + 2 => fib (n + 1) + fib n

/-- Pure description of what `getFibNumber` returns for a given step
(steps `≤ 0` yield 1, matching the early return in the source). -/
def fibNumber (step : ℤ) : ℕ :=
  if step ≤ 0 then 1 else fib step.toNat

/-- The initial state of the process-wide memo array `fibCache = [1, 1]`. -/
def fibCacheInit : List ℕ := [1, 1]

/-- One `while` pass of `getFibNumber`: repeatedly push the sum of the two
last entries.  The fuel argument counts the pushes still needed. -/
def growFibCache : ℕ → List ℕ → List ℕ
  | 0, c => c
  | n + 1, c =>
    growFibCache n (c ++ [c.getD (c.length - 1) 0 + c.getD (c.length - 2) 0])

/-- Source `getFibNumber(step)` from the source, with the shared memo array made
an explicit argument: returns the value together with the grown cache. -/
def getFibNumber (step : ℤ) (cache : List ℕ) : ℕ × List ℕ :=
  if step ≤ 0 then (1, cache)
  else
    ((growFibCache ((step + 1).toNat - cache.length) cache).getD step.toNat 0,
      growFibCache ((step + 1).toNat - cache.length) cache)

/-- Caches reachable from `fibCache = [1, 1]` by any sequence of
`getFibNumber` calls (the possible prior call histories). -/
inductive FibCacheReachable : List ℕ → Prop where
  | init : FibCacheReachable fibCacheInit
  | call (n : ℤ) {c : List ℕ} :
      FibCacheReachable c → FibCacheReachable (getFibNumber n c).2

/-- Source `computeStake` from `download_recent_matches.js`.  The Fibonacci arm
uses the pure `fibNumber`; the refinement theorem for `getFibNumber`
shows the memoized source computes the same value. -/
def computeStake (bank : ℚ) (combo : Combo) (fibStep : ℤ) : ℚ :=
  if bank ≤ 0 then 0
  else
    match combo.stake_type with
    | StakeType.flat => min combo.flat_amount bank
    | StakeType.pctBankroll => min (bank * combo.percent) bank
    | StakeType.fibonacci => (fibNumber fibStep : ℚ) * combo.unit

/-- Positive-advantage count of the delta-favored team (source:
`match.deltaFavIsTeam1 ? match.team1Pos : match.team2Pos`). -/
def favPos (m : Match) : ℕ :=
  if m.deltaFavIsTeam1 then m.team1Pos else m.team2Pos

/-- Negative-advantage count of the opposing team. -/
def oppNeg (m : Match) : ℕ :=
  if m.deltaFavIsTeam1 then m.team2Neg else m.team1Neg

/-- Source `heroFilterSatisfied` from the source. -/
def heroFilterSatisfied (m : Match) (f : HeroFilter) : Bool :=
  match f with
  | HeroFilter.noFilter => true
  | HeroFilter.fourFour => decide (4 ≤ favPos m) && decide (4 ≤ oppNeg m)
  | HeroFilter.fiveFive => decide (5 ≤ favPos m) && decide (5 ≤ oppNeg m)

/-- The per-run mutable state of `simulateStrategy` (`bank`, `bets`,
`wins`, `peak`, `maxDrawdown`, `maxStake`, `fibStep`, `maxStepReached`),
plus a flag recording that the `bank <= 0` branch executed `break`. -/
structure SimState where
  bank : ℚ
  bets : ℕ
  wins : ℕ
  peak : ℚ
  maxDrawdown : ℚ
  maxStake : ℚ
  fibStep : ℤ
  maxStepReached : ℤ
  busted : Bool
deriving DecidableEq, Repr

/-- Initial state of a simulation run. -/
def simInit : SimState :=
  { bank := INITIAL_BANK, bets := 0, wins := 0, peak := INITIAL_BANK,
    maxDrawdown := 0, maxStake := 0, fibStep := 0, maxStepReached := 0,
    busted := false }

/-- The bet-placing tail of the loop body of `simulateStrategy`
(everything after the `stake <= 0` guard). -/
def settleBet (combo : Combo) (s : SimState) (m : Match) (stake : ℚ) :
    SimState :=
  let stepBefore := s.fibStep
  let bank1 := s.bank - stake
  let maxStake1 := if s.maxStake < stake then stake else s.maxStake
  let maxStep1 :=
    if combo.stake_type = StakeType.fibonacci ∧ s.maxStepReached < stepBefore
    then stepBefore else s.maxStepReached
  let won := m.winner = m.deltaFavTeam
  let bank2 := if won then bank1 + stake * m.favOdds else bank1
  let wins1 := if won then s.wins + 1 else s.wins
  let fibStep1 :=
    if combo.stake_type = StakeType.fibonacci then
      (if won then (if stepBefore ≤ 1 then 0 else stepBefore - 2)
       else stepBefore + 1)
    else stepBefore
  let peak1 := if s.peak < bank2 then bank2 else s.peak
  let maxDD1 :=
    if s.peak < bank2 then s.maxDrawdown
    else if s.maxDrawdown < s.peak - bank2 then s.peak - bank2
    else s.maxDrawdown
  { bank := bank2, bets := s.bets + 1, wins := wins1, peak := peak1,
    maxDrawdown := maxDD1, maxStake := maxStake1, fibStep := fibStep1,
    maxStepReached := maxStep1, busted := s.busted }

/-- One iteration of the `for (const match of matches)` loop of
`simulateStrategy`.  The `busted` flag freezes the state once the
`bank <= 0` branch has executed its `break`. -/
def simStep (combo : Combo) (T : ℚ) (s : SimState) (m : Match) : SimState :=
  if s.busted then s
  else if s.bank ≤ 0 then { s with bank := 0, busted := true }
  else if m.deltaAbs < T then s
  else if combo.odds_condition = OddsCond.favorite ∧
          m.oddsRelation ≠ OddsRel.favorite then s
  else if combo.odds_condition = OddsCond.underdog ∧
          m.oddsRelation ≠ OddsRel.underdog then s
  else if ¬ heroFilterSatisfied m combo.hero_filter then s
  else if m.favOdds ≤ 1 then s
  else if min (computeStake s.bank combo s.fibStep) (min MAX_BET s.bank) ≤ 0 then s
  else settleBet combo s m
    (min (computeStake s.bank combo s.fibStep) (min MAX_BET s.bank))

/-- Source `simulateStrategy` from `download_recent_matches.js`, as the fold of
`simStep` over the match corpus; returns the final run state. -/
def simulateStrategy (ms : List Match) (combo : Combo) (T : ℚ) :
    SimState :=
  ms.foldl (simStep combo T) simInit

/-- The eligibility predicate implicit in the guard chain of the loop
body: a bet can only be placed on a match passing the delta threshold,
the odds condition, the hero filter and the odds-validity check.  Each
conjunct is the negation of one `continue` guard of the source. -/
def eligibleFor (combo : Combo) (T : ℚ) (m : Match) : Bool :=
  decide (¬ m.deltaAbs < T) &&
  decide (¬ (combo.odds_condition = OddsCond.favorite ∧
             m.oddsRelation ≠ OddsRel.favorite)) &&
  decide (¬ (combo.odds_condition = OddsCond.underdog ∧
             m.oddsRelation ≠ OddsRel.underdog)) &&
  heroFilterSatisfied m combo.hero_filter &&
  decide (¬ m.favOdds ≤ 1)

/-- Strategy configurations whose staking parameter is positive; every
configuration generated by `buildCombos` satisfies this. -/
def validCombo (c : Combo) : Prop :=
  match c.stake_type with
  | StakeType.flat => 0 < c.flat_amount
  | StakeType.pctBankroll => 0 < c.percent
  | StakeType.fibonacci => 0 < c.unit

/-! ### Strategy enumeration (`buildCombos`) -/

/-- Source `oddsConditions = ['any', 'underdog', 'favorite']` in `buildCombos`. -/
def oddsConditions : List OddsCond :=
  [OddsCond.anyOdds, OddsCond.underdog, OddsCond.favorite]

/-- The `flat100` template of `buildCombos`. -/
def mkFlat100 (amount : ℚ) (hf : HeroFilter) (oc : OddsCond) : Combo :=
  { strategy_group := "Flat100", stake_type := StakeType.flat,
    flat_amount := amount, percent := 0, unit := 0,
    hero_filter := hf, odds_condition := oc }

/-- The `flat5` template of `buildCombos` (group label `Flat5pct`). -/
def mkFlat5 (amount : ℚ) (hf : HeroFilter) (oc : OddsCond) : Combo :=
  { strategy_group := "Flat5pct", stake_type := StakeType.flat,
    flat_amount := amount, percent := 0, unit := 0,
    hero_filter := hf, odds_condition := oc }

/-- The `pct5` template of `buildCombos` (5% of current bankroll). -/
def mkPct5 (hf : HeroFilter) (oc : OddsCond) : Combo :=
  { strategy_group := "Pct5", stake_type := StakeType.pctBankroll,
    flat_amount := 0, percent := 0.05, unit := 0,
    hero_filter := hf, odds_condition := oc }

/-- The `fib1` template of `buildCombos` (Fibonacci staking with a unit). -/
def mkFib (unit : ℚ) (hf : HeroFilter) (oc : OddsCond) : Combo :=
  { strategy_group := if unit = 1 then "Fibo1" else "Fibo5",
    stake_type := StakeType.fibonacci,
    flat_amount := 0, percent := 0, unit := unit,
    hero_filter := hf, odds_condition := oc }

/-- Source `const flatFiveAmount = INITIAL_BANK * 0.05` in `buildCombos`. -/
def flatFiveAmount : ℚ := INITIAL_BANK * 0.05

/-- Source `buildCombos` from `download_recent_matches.js`: the list of strategy
configurations, in the exact push order of the source (the comment
numbers 1-36 in the source). -/
def buildCombos : List Combo :=
  oddsConditions.map (mkFlat100 100 HeroFilter.noFilter)
    ++ oddsConditions.map (mkPct5 HeroFilter.noFilter)
    ++ oddsConditions.map (mkFlat100 100 HeroFilter.fourFour)
    ++ oddsConditions.map (mkFlat5 flatFiveAmount HeroFilter.fourFour)
    ++ oddsConditions.map (mkFlat100 100 HeroFilter.fiveFive)
    ++ oddsConditions.map (mkFlat5 flatFiveAmount HeroFilter.fiveFive)
    ++ oddsConditions.map (mkFib 1 HeroFilter.noFilter)
    ++ oddsConditions.map (mkFib 1 HeroFilter.fourFour)
    ++ oddsConditions.map (mkFib 1 HeroFilter.fiveFive)
    ++ oddsConditions.map (mkFib 5 HeroFilter.noFilter)
    ++ oddsConditions.map (mkFib 5 HeroFilter.fourFour)
    ++ oddsConditions.map (mkFib 5 HeroFilter.fiveFive)

/-- Modelled from the spec: the five staking policies in the spec's order
(flat $100; 5% of current bankroll; fixed 5%-of-starting-bankroll;
Fibonacci unit 1; Fibonacci unit 5). -/
def specPolicies : List (HeroFilter → OddsCond → Combo) :=
  [mkFlat100 100, mkPct5, mkFlat5 flatFiveAmount, mkFib 1, mkFib 5]

/-- The three hero-filter variants in the spec's order. -/
def specHeroFilters : List HeroFilter :=
  [HeroFilter.noFilter, HeroFilter.fourFour, HeroFilter.fiveFive]

/-- Modelled from the spec: the full cross-product enumeration the claim
describes — policy first, then hero filter, then odds condition. -/
def buildCombosSpec : List Combo :=
  specPolicies.flatMap fun p =>
    specHeroFilters.flatMap fun hf =>
      oddsConditions.map fun oc => p hf oc

/-- The 12 (staking template, hero filter) pairs actually emitted by
`buildCombos`, in its push order. -/
def comboTemplates : List ((HeroFilter → OddsCond → Combo) × HeroFilter) :=
  [(mkFlat100 100, HeroFilter.noFilter),
   (mkPct5, HeroFilter.noFilter),
   (mkFlat100 100, HeroFilter.fourFour),
   (mkFlat5 flatFiveAmount, HeroFilter.fourFour),
   (mkFlat100 100, HeroFilter.fiveFive),
   (mkFlat5 flatFiveAmount, HeroFilter.fiveFive),
   (mkFib 1, HeroFilter.noFilter),
   (mkFib 1, HeroFilter.fourFour),
   (mkFib 1, HeroFilter.fiveFive),
   (mkFib 5, HeroFilter.noFilter),
   (mkFib 5, HeroFilter.fourFour),
   (mkFib 5, HeroFilter.fiveFive)]

/-- The amended description of the generator's output: the 12 template ×
filter pairs above, each crossed with the three odds conditions. -/
def buildCombosAmended : List Combo :=
  comboTemplates.flatMap fun pc => oddsConditions.map (pc.1 pc.2)

/-- The (strategy, threshold) pairs in the order `main` consumes them:
combo-major (generation order), thresholds ascending within a combo. -/
def strategyPairs : List (Combo × ℚ) :=
  buildCombos.flatMap fun c => DELTA_THRESHOLDS.map fun t => (c, t)

/-! ### Advantage scoring -/

/-- The advantage entry of cell `(i, j)` of the `win_rates` matrix, with
absent rows/cells contributing 0 (mirrors the `!row` / `!cell ||
cell[0] == null` guards). -/
def cellAdv (wr : List (List (Option ℚ))) (i j : ℕ) : ℚ :=
  match (wr.getD i []).getD j none with
  | none => 0
  | some v => v

/-- Source `computeAdvantage` from `download_recent_matches.js`: for each enemy,
it reads `winRates[enemyId][heroId]` — the row of the *enemy*, indexed by
the hero — and sums the advantage entries. -/
def computeAdvantage (heroId : ℕ) (enemyIds : List ℕ)
    (winRates : List (List (Option ℚ))) : ℚ :=
  enemyIds.foldl (fun total enemyId => total + cellAdv winRates enemyId heroId) 0

/-- Modelled from the spec: per-hero advantage = sum of
`matrix[hero][opp].advantage` over present cells — the row of the *hero*,
indexed by the opponent. -/
def specHeroAdvantage (heroId : ℕ) (oppIds : List ℕ)
    (winRates : List (List (Option ℚ))) : ℚ :=
  oppIds.foldl (fun total oppId => total + cellAdv winRates heroId oppId) 0

/-- Source `computeTeamCounts` from `download_recent_matches.js`: counts heroes
with strictly positive / strictly negative `computeAdvantage`. -/
def computeTeamCounts (heroIds enemyIds : List ℕ)
    (winRates : List (List (Option ℚ))) : ℕ × ℕ :=
  heroIds.foldl
    (fun pn heroId =>
      let adv := computeAdvantage heroId enemyIds winRates
      if 0 < adv then (pn.1 + 1, pn.2)
      else if adv < 0 then (pn.1, pn.2 + 1)
      else pn)
    (0, 0)

/-- Modelled from the spec: the positive/negative counts computed from
`matrix[hero][opp]` (the hero's own row). -/
def specTeamCounts (heroIds enemyIds : List ℕ)
    (winRates : List (List (Option ℚ))) : ℕ × ℕ :=
  heroIds.foldl
    (fun pn heroId =>
      let adv := specHeroAdvantage heroId enemyIds winRates
      if 0 < adv then (pn.1 + 1, pn.2)
      else if adv < 0 then (pn.1, pn.2 + 1)
      else pn)
    (0, 0)

/-- Source `heroScore` from `run_delta_pct_custom.js` / `delta_pct_strategy.js`,
on resolved hero indices: global win rate (default 50) plus the sum of
`win_rates[idx][oppIdx]` advantage entries — the hero's own row, indexed
by each opponent. -/
def heroScore (heroesWr : List ℚ) (winRates : List (List (Option ℚ)))
    (idx : ℕ) (oppIds : List ℕ) : ℚ :=
  heroesWr.getD idx 50 +
    oppIds.foldl (fun adv oppIdx => adv + cellAdv winRates idx oppIdx) 0

/-! ### Hero index and match loading -/

/-- Source `normalizeHeroName`: lowercase, then strip everything outside
`[a-z0-9]` (character-wise, as the regex of the source does). -/
def normalizeHeroName (s : String) : String :=
  String.mk ((s.data.map Char.toLower).filter
    (fun ch => ('a' ≤ ch && ch ≤ 'z') || ('0' ≤ ch && ch ≤ '9')))

/-- The `heroIndex` map of `loadCsData`: normalized hero name → index.
Later `Map.set` calls overwrite earlier ones, hence the reversed search. -/
def buildHeroIndex (heroes : List String) : List (String × ℕ) :=
  heroes.enum.map fun p => (normalizeHeroName p.2, p.1)

/-- Source `heroIndex.get` (with `Map` semantics: the latest binding wins). -/
def heroIndexGet (idx : List (String × ℕ)) (key : String) : Option ℕ :=
  (idx.reverse.find? fun p => p.1 == key).map Prod.snd

/-- Source `heroNamesToIds` from `download_recent_matches.js`: resolve every
name; `none` as soon as any name is missing from the index. -/
def heroNamesToIds (heroNames : List String) (idx : List (String × ℕ)) :
    Option (List ℕ) :=
  match heroNames with
  | [] => some []
  | n :: rest =>
    match heroIndexGet idx (normalizeHeroName n) with
    | none => none
    | some i => (heroNamesToIds rest idx).map (i :: ·)

/-- Source `classifyOddsRelation` from the source. -/
def classifyOddsRelation (favO dogO : ℚ) : OddsRel :=
  if favO < dogO then OddsRel.favorite
  else if dogO < favO then OddsRel.underdog
  else OddsRel.anyRel

/-- A parsed CSV row of the match corpus, at the point where the
per-field guards of `loadMatches` inspect it (`parseNumber` failures are
`none`). -/
structure RawRow where
  delta : Option ℚ
  team1Heroes : List String
  team2Heroes : List String
  winner : String
  team1Name : String
  team2Name : String
  deltaFavTeam : String
  team1Odds : Option ℚ
  team2Odds : Option ℚ
deriving Repr

/-- The named skip counters of `loadMatches` (the CSV-level `blank` and
`malformed` counters live below the `RawRow` abstraction). -/
structure SkipCounters where
  delta : ℕ
  heroes : ℕ
  heroLookup : ℕ
  favored : ℕ
  odds : ℕ
deriving DecidableEq, Repr

/-- One iteration of the row loop of `loadMatches`: either append a
preprocessed `Match` or bump exactly one skip counter, mirroring the
guard order of the source. -/
def processRow (idx : List (String × ℕ)) (wr : List (List (Option ℚ)))
    (acc : List Match × SkipCounters) (r : RawRow) :
    List Match × SkipCounters :=
  match r.delta with
  | none => (acc.1, { acc.2 with delta := acc.2.delta + 1 })
  | some deltaRaw =>
    if r.team1Heroes.length ≠ 5 ∨ r.team2Heroes.length ≠ 5 then
      (acc.1, { acc.2 with heroes := acc.2.heroes + 1 })
    else
      match heroNamesToIds r.team1Heroes idx, heroNamesToIds r.team2Heroes idx with
      | some t1, some t2 =>
        let c1 := computeTeamCounts t1 t2 wr
        let c2 := computeTeamCounts t2 t1 wr
        if r.deltaFavTeam = "" ∨ r.team1Name = "" ∨ r.team2Name = "" then
          (acc.1, { acc.2 with favored := acc.2.favored + 1 })
        else if r.team1Name = r.deltaFavTeam ∨ r.team2Name = r.deltaFavTeam then
          let favIsT1 : Bool := r.team1Name == r.deltaFavTeam
          match r.team1Odds, r.team2Odds with
          | some o1, some o2 =>
            if o1 ≤ 1 ∨ o2 ≤ 1 then
              (acc.1, { acc.2 with odds := acc.2.odds + 1 })
            else
              let favO := if favIsT1 then o1 else o2
              let dogO := if favIsT1 then o2 else o1
              (acc.1 ++
                [{ deltaAbs := |deltaRaw|,
                   deltaFavTeam := r.deltaFavTeam,
                   deltaFavIsTeam1 := favIsT1,
                   favOdds := favO, dogOdds := dogO,
                   oddsRelation := classifyOddsRelation favO dogO,
                   winner := r.winner,
                   team1Pos := c1.1, team1Neg := c1.2,
                   team2Pos := c2.1, team2Neg := c2.2 }],
               acc.2)
          | _, _ => (acc.1, { acc.2 with odds := acc.2.odds + 1 })
        else
          (acc.1, { acc.2 with favored := acc.2.favored + 1 })
      | _, _ => (acc.1, { acc.2 with heroLookup := acc.2.heroLookup + 1 })

/-- Source `loadMatches` from `download_recent_matches.js`, from parsed rows on:
the preprocessed match list and the skip counters. -/
def loadMatches (idx : List (String × ℕ)) (wr : List (List (Option ℚ)))
    (rows : List RawRow) : List Match × SkipCounters :=
  rows.foldl (processRow idx wr)
    ([], { delta := 0, heroes := 0, heroLookup := 0, favored := 0, odds := 0 })

/-! ### Matchup-matrix builder (`build_cs_matrix.js`) -/

/-- The per-pair aggregate grid: `(games, wins)` per ordered hero pair. -/
abbrev PairStats := ℕ → ℕ → ℕ × ℕ

/-- Increment one directed cell: `cell.games += 1; if (win) cell.wins += 1`. -/
def bumpCell (p : PairStats) (r d : ℕ) (win : Bool) : PairStats :=
  fun i j =>
    if i = r ∧ j = d then
      ((p i j).1 + 1, (p i j).2 + (if win then 1 else 0))
    else p i j

/-- The inner-loop body of `buildMatrix`: update `pairStats[r][d]` with
the radiant result and `pairStats[d][r]` with the dire result. -/
def pairUpdate (p : PairStats) (r d : ℕ) (radiantWin : Bool) : PairStats :=
  bumpCell (bumpCell p r d radiantWin) d r (!radiantWin)

/-- The double loop over the two five-hero sides of one valid match. -/
def ingestPairs (p : PairStats) (radiant dire : List ℕ) (radiantWin : Bool) :
    PairStats :=
  radiant.foldl
    (fun p1 r => dire.foldl (fun p2 d => pairUpdate p2 r d radiantWin) p1) p

/-- One STRATZ match record as consumed by `buildMatrix`. -/
structure StratzMatch where
  radiantRoles : List ℕ
  direRoles : List ℕ
  radiantWin : Bool
deriving Repr

/-- Source `normalizeHeroIds` from `build_cs_matrix.js`: map every raw id
through the hero map; `none` on any unmapped id or a side that is not
exactly 5 heroes. -/
def normalizeHeroIds (raw : List ℕ) (heroMap : ℕ → Option ℕ) :
    Option (List ℕ) :=
  match raw.mapM heroMap with
  | none => none
  | some ids => if ids.length = 5 then some ids else none

/-- The `pairStats` accumulation of `buildMatrix`: skip invalid matches,
ingest the 5×5 pair grid of valid ones. -/
def buildPairStats (heroMap : ℕ → Option ℕ) (ms : List StratzMatch) :
    PairStats :=
  ms.foldl
    (fun p m =>
      match normalizeHeroIds m.radiantRoles heroMap,
            normalizeHeroIds m.direRoles heroMap with
      | some r, some d => ingestPairs p r d m.radiantWin
      | _, _ => p)
    (fun _ _ => (0, 0))

/-! ### Delta-percent simulator (`run_delta_pct_custom.js` `execute`) -/

/-- Source `START_BANK` in `run_delta_pct_custom.js`. -/
def START_BANK : ℚ := 1000

/-- The options record handed to `runWithOptions`/`execute`.  The call in
`run_delta_pct_custom_cli20.js` passes both `maxBet` and `minDelta`;
`execute` itself only ever reads `maxBet`. -/
structure ExecOpts where
  maxBet : ℚ
  minDelta : ℚ
deriving Repr

/-- The mutable run state of `execute`. -/
structure DPState where
  bank : ℚ
  peak : ℚ
  maxDrawdown : ℚ
  bets : ℕ
  wins : ℕ
  losses : ℕ
  skipped : ℕ
  stopped : Bool
deriving DecidableEq, Repr

/-- Initial state of an `execute` run. -/
def dpInit : DPState :=
  { bank := START_BANK, peak := START_BANK, maxDrawdown := 0,
    bets := 0, wins := 0, losses := 0, skipped := 0, stopped := false }

/-- A match as seen by `execute`: the scalar delta produced by
`matrix.delta` (`none` when a side is not 5 heroes) and the raw fields it
reads. -/
structure DPMatch where
  delta : Option ℚ
  team1 : String
  team2 : String
  winner : String
  team1Odds : Option ℚ
  team2Odds : Option ℚ
deriving Repr

/-- Source `const pct = Math.min(Math.abs(delta) / 1000, 1)` in `execute`. -/
def dpPct (delta : ℚ) : ℚ := min (|delta| / 1000) 1

/-- The raw stake of `execute` after the max-bet cap and the bankroll
clip but before flooring (`maxBet ≤ 0` means uncapped, i.e. Infinity). -/
def dpStakeClipped (opts : ExecOpts) (bank delta : ℚ) : ℚ :=
  if bank <
      (if 0 < opts.maxBet ∧ opts.maxBet < bank * dpPct delta then opts.maxBet
       else bank * dpPct delta)
  then bank
  else
    (if 0 < opts.maxBet ∧ opts.maxBet < bank * dpPct delta then opts.maxBet
     else bank * dpPct delta)

/-- Source `stake = Math.floor(stake)` in `execute`: the amount actually
debited. -/
def dpStake (opts : ExecOpts) (bank delta : ℚ) : ℚ :=
  ((⌊dpStakeClipped opts bank delta⌋ : ℤ) : ℚ)

/-- The bet-settling tail of the loop body of `execute`: debit the
floored stake, credit `Math.floor(stake * favoredOdds)` on a win, update
peak/drawdown, stop on `bank <= 0`. -/
def dpSettle (s : DPState) (won : Bool) (stake odds : ℚ) : DPState :=
  let payout : ℚ := if won then ((⌊stake * odds⌋ : ℤ) : ℚ) else 0
  let bank2 := s.bank - stake + payout
  let peak1 := if s.peak < bank2 then bank2 else s.peak
  let dd := peak1 - bank2
  { bank := bank2, peak := peak1,
    maxDrawdown := if s.maxDrawdown < dd then dd else s.maxDrawdown,
    bets := s.bets + 1,
    wins := if won then s.wins + 1 else s.wins,
    losses := if won then s.losses else s.losses + 1,
    skipped := s.skipped,
    stopped := decide (bank2 ≤ 0) }

/-- One iteration of the match loop of `execute`.  Note: no delta
threshold appears anywhere — `opts.minDelta` is never consulted. -/
def dpStep (opts : ExecOpts) (s : DPState) (m : DPMatch) : DPState :=
  if s.stopped then s
  else
    match m.delta with
    | none => { s with skipped := s.skipped + 1 }
    | some delta =>
      if delta = 0 then { s with skipped := s.skipped + 1 }
      else
        match (if 0 < delta then m.team1Odds else m.team2Odds) with
        | none => { s with skipped := s.skipped + 1 }
        | some odds =>
          if odds ≤ 1 then { s with skipped := s.skipped + 1 }
          else if dpStake opts s.bank delta ≤ 0 then s
          else
            dpSettle s
              (decide (m.winner = (if 0 < delta then m.team1 else m.team2)))
              (dpStake opts s.bank delta) odds

/-- Source `execute` from `run_delta_pct_custom.js` (exported as
`runWithOptions`), as the fold of `dpStep` over the sorted corpus. -/
def execute (opts : ExecOpts) (ms : List DPMatch) : DPState :=
  ms.foldl (dpStep opts) dpInit

/-! ### Delta-percent simulator of `delta_pct_strategy.js` (`run`) -/

/-- The mutable run state of `run` in `delta_pct_strategy.js`: like
`execute`'s but with the additional `trough` and `maxStake` trackers. -/
structure DPSState where
  bank : ℚ
  peak : ℚ
  trough : ℚ
  maxDrawdown : ℚ
  maxStake : ℚ
  bets : ℕ
  wins : ℕ
  losses : ℕ
  skipped : ℕ
  stopped : Bool
deriving DecidableEq, Repr

/-- Initial state of a `run` simulation (`START_BANK = 1000`). -/
def dpsInit : DPSState :=
  { bank := START_BANK, peak := START_BANK, trough := START_BANK,
    maxDrawdown := 0, maxStake := 0, bets := 0, wins := 0, losses := 0,
    skipped := 0, stopped := false }

/-- The raw stake of `run` after the fixed `MAX_BET` cap and the
bankroll clip but before flooring (`stake = bank * pct; if (stake >
MAX_BET) ...; if (stake > bank) ...`). -/
def dpsStakeClipped (bank delta : ℚ) : ℚ :=
  if bank < (if MAX_BET < bank * dpPct delta then MAX_BET else bank * dpPct delta)
  then bank
  else (if MAX_BET < bank * dpPct delta then MAX_BET else bank * dpPct delta)

/-- Source `stake = Math.floor(stake)` in `run`: the amount actually
debited. -/
def dpsStake (bank delta : ℚ) : ℚ :=
  ((⌊dpsStakeClipped bank delta⌋ : ℤ) : ℚ)

/-- The bet-settling tail of the loop body of `run`: debit the floored
stake, credit `Math.floor(stake * favoredOdds)` on a win, update
peak/trough/drawdown/max-stake, stop on `bank <= 0`. -/
def dpsSettle (s : DPSState) (won : Bool) (stake odds : ℚ) : DPSState :=
  let payout : ℚ := if won then ((⌊stake * odds⌋ : ℤ) : ℚ) else 0
  let bank2 := s.bank - stake + payout
  let peak1 := if s.peak < bank2 then bank2 else s.peak
  let dd := peak1 - bank2
  { bank := bank2, peak := peak1,
    trough := if bank2 < s.trough then bank2 else s.trough,
    maxDrawdown := if s.maxDrawdown < dd then dd else s.maxDrawdown,
    maxStake := if s.maxStake < stake then stake else s.maxStake,
    bets := s.bets + 1,
    wins := if won then s.wins + 1 else s.wins,
    losses := if won then s.losses else s.losses + 1,
    skipped := s.skipped,
    stopped := decide (bank2 ≤ 0) }

/-- One iteration of the match loop of `run` in `delta_pct_strategy.js`:
unlike `execute`, the skip guard checks both the favored and the
opposing odds, and the max-bet cap is the fixed constant `MAX_BET`. -/
def runStep (s : DPSState) (m : DPMatch) : DPSState :=
  if s.stopped then s
  else
    match m.delta with
    | none => { s with skipped := s.skipped + 1 }
    | some delta =>
      if delta = 0 then { s with skipped := s.skipped + 1 }
      else
        match (if 0 < delta then m.team1Odds else m.team2Odds),
              (if 0 < delta then m.team2Odds else m.team1Odds) with
        | some favOdds, some oppOdds =>
          if favOdds ≤ 1 ∨ oppOdds ≤ 1 then { s with skipped := s.skipped + 1 }
          else if dpsStake s.bank delta ≤ 0 then s
          else
            dpsSettle s
              (decide (m.winner = (if 0 < delta then m.team1 else m.team2)))
              (dpsStake s.bank delta) favOdds
        | _, _ => { s with skipped := s.skipped + 1 }

/-- Source `run` from `delta_pct_strategy.js`, as the fold of `runStep`
over the sorted corpus. -/
def run (ms : List DPMatch) : DPSState :=
  ms.foldl runStep dpsInit

/-! ### Concrete inputs used by witnesses and counterexamples -/

/-- A match the delta-favored team loses (delta 5, even odds 2.0). -/
def c1Lose : Match :=
  { deltaAbs := 5, deltaFavTeam := "A", deltaFavIsTeam1 := true,
    favOdds := 2, dogOdds := 2, oddsRelation := OddsRel.anyRel,
    winner := "B", team1Pos := 0, team1Neg := 0, team2Pos := 0, team2Neg := 0 }

/-- Flat-$100 configuration, no hero filter, any odds. -/
def c1Combo : Combo := mkFlat100 100 HeroFilter.noFilter OddsCond.anyOdds

/-- Eleven straight losses at $100: the bank hits 0 after the tenth and
the eleventh iteration takes the bust branch. -/
def c1Corpus : List Match := List.replicate 11 c1Lose

/-- Same losing match as `c1Lose` (separate corpus for claim C2). -/
def c2Lose : Match :=
  { deltaAbs := 5, deltaFavTeam := "A", deltaFavIsTeam1 := true,
    favOdds := 2, dogOdds := 2, oddsRelation := OddsRel.anyRel,
    winner := "B", team1Pos := 0, team1Neg := 0, team2Pos := 0, team2Neg := 0 }

/-- A high-delta match the delta-favored team wins. -/
def c2Win : Match := { c2Lose with deltaAbs := 50, winner := "A" }

/-- Flat-$100 configuration for the threshold-monotonicity claim. -/
def c2Combo : Combo := mkFlat100 100 HeroFilter.noFilter OddsCond.anyOdds

/-- Ten low-delta losses (delta 5) followed by eleven high-delta wins
(delta 50): at threshold 5 the run busts after 10 bets; at threshold 10
it skips the losses and places 11 bets. -/
def c2Corpus : List Match := List.replicate 10 c2Lose ++ List.replicate 11 c2Win

/-- A won match at odds 1.51 with delta 10. -/
def c3Match : Match :=
  { deltaAbs := 10, deltaFavTeam := "A", deltaFavIsTeam1 := true,
    favOdds := 151/100, dogOdds := 3, oddsRelation := OddsRel.favorite,
    winner := "A", team1Pos := 0, team1Neg := 0, team2Pos := 0, team2Neg := 0 }

/-- Five-percent-of-bankroll configuration. -/
def c3Combo : Combo := mkPct5 HeroFilter.noFilter OddsCond.anyOdds

/-- Options for the delta-pct witness run. -/
def c3Opts : ExecOpts := { maxBet := 10000, minDelta := 0 }

/-- A delta-pct match with delta 25 and odds 1.51. -/
def c3DPMatch : DPMatch :=
  { delta := some 25, team1 := "A", team2 := "B", winner := "A",
    team1Odds := some (151/100), team2Odds := some 3 }

/-- A 2×2 matrix with `cell[0][1].advantage = 3` and
`cell[1][0].advantage = -3`: hero 0 is favored against hero 1. -/
def c4Matrix : List (List (Option ℚ)) := [[none, some 3], [some (-3), none]]

/-- Fibonacci-unit-1 configuration. -/
def c5Combo : Combo := mkFib 1 HeroFilter.noFilter OddsCond.anyOdds

/-- A mid-run state with step counter 5. -/
def c5State : SimState := { simInit with fibStep := 5 }

/-- A won match for the Fibonacci-step witness. -/
def c5Win : Match :=
  { deltaAbs := 50, deltaFavTeam := "A", deltaFavIsTeam1 := true,
    favOdds := 2, dogOdds := 2, oddsRelation := OddsRel.anyRel,
    winner := "A", team1Pos := 0, team1Neg := 0, team2Pos := 0, team2Neg := 0 }

/-- A five-hero index for the unresolved-hero witness. -/
def c7Index : List (String × ℕ) :=
  buildHeroIndex ["Axe", "Bane", "Crystal Maiden", "Drow Ranger", "Earthshaker"]

/-- A row whose team-2 hero list contains a name absent from the index. -/
def c7BadRow : RawRow :=
  { delta := some 7, team1Heroes := ["Axe", "Bane", "Crystal Maiden", "Drow Ranger", "Earthshaker"],
    team2Heroes := ["Axe", "Bane", "Crystal Maiden", "Drow Ranger", "Unknown Hero"],
    winner := "T1", team1Name := "T1", team2Name := "T2",
    deltaFavTeam := "T1", team1Odds := some 2, team2Odds := some 3 }

/-- A fully well-formed row (all heroes resolve, odds valid). -/
def c7GoodRow : RawRow :=
  { c7BadRow with
    team2Heroes := ["Earthshaker", "Drow Ranger", "Crystal Maiden", "Bane", "Axe"] }

/-- Options as passed by `run_delta_pct_custom_cli20.js`: `maxBet:
500000, minDelta: 20`. -/
def c8Opts : ExecOpts := { maxBet := 500000, minDelta := 20 }

/-- A match whose absolute delta 10 lies strictly below the configured
`minDelta` of 20. -/
def c8Match : DPMatch :=
  { delta := some 10, team1 := "A", team2 := "B", winner := "B",
    team1Odds := some 2, team2Odds := some 2 }

/-- The all-zero pair grid. -/
def zeroPS : PairStats := fun _ _ => (0, 0)

/-- The caches of the source hold a strict prefix of the Fibonacci
sequence: at least the two seed entries, and entry `i` equal to `fib i`. -/
def IsFibPrefix (c : List ℕ) : Prop :=
  2 ≤ c.length ∧ ∀ i, i < c.length → c.getD i 0 = fib i

/-- All-zero skip counters. -/
def zeroSkips : SkipCounters :=
  { delta := 0, heroes := 0, heroLookup := 0, favored := 0, odds := 0 }

/-- The matches a single row contributes to the `matches` array (either
one preprocessed match or none). -/
def rowMatch (idx : List (String × ℕ)) (wr : List (List (Option ℚ)))
    (r : RawRow) : List Match :=
  (processRow idx wr ([], zeroSkips) r).1

/-- The `heroLookup` skip-counter contribution of a single row. -/
def rowHL (idx : List (String × ℕ)) (wr : List (List (Option ℚ)))
    (r : RawRow) : ℕ :=
  (processRow idx wr ([], zeroSkips) r).2.heroLookup

/-! ## Shared lemmas -/

lemma foldl_preserve {σ α : Type _} (f : σ → α → σ) (P : σ → Prop)
    (h : ∀ s a, P s → P (f s a)) :
    ∀ (l : List α) (s : σ), P s → P (l.foldl f s)
  | [], _, hs => hs
  | a :: l, s, hs => foldl_preserve f P h l (f s a) (h s a hs)

lemma settleBet_bank (combo : Combo) (s : SimState) (m : Match) (st : ℚ) :
    (settleBet combo s m st).bank =
      if m.winner = m.deltaFavTeam then s.bank - st + st * m.favOdds
      else s.bank - st := rfl

lemma settleBet_bets (combo : Combo) (s : SimState) (m : Match) (st : ℚ) :
    (settleBet combo s m st).bets = s.bets + 1 := rfl

lemma settleBet_busted (combo : Combo) (s : SimState) (m : Match) (st : ℚ) :
    (settleBet combo s m st).busted = s.busted := rfl

lemma settleBet_fibStep (combo : Combo) (s : SimState) (m : Match) (st : ℚ) :
    (settleBet combo s m st).fibStep =
      if combo.stake_type = StakeType.fibonacci then
        (if m.winner = m.deltaFavTeam then
           (if s.fibStep ≤ 1 then 0 else s.fibStep - 2)
         else s.fibStep + 1)
      else s.fibStep := rfl

lemma simStep_busted (combo : Combo) (T : ℚ) (s : SimState) (m : Match)
    (h : s.busted = true) : simStep combo T s m = s := by
  simp [simStep, h]

lemma foldl_simStep_frozen (combo : Combo) (T : ℚ) :
    ∀ (ms : List Match) (s : SimState), s.busted = true →
      ms.foldl (simStep combo T) s = s
  | [], _, _ => rfl
  | m :: ms, s, h => by
    rw [List.foldl_cons, simStep_busted combo T s m h,
      foldl_simStep_frozen combo T ms s h]

lemma simStep_clip (combo : Combo) (T : ℚ) (s : SimState) (m : Match)
    (hb : s.busted = false) (h0 : s.bank ≤ 0) :
    simStep combo T s m = { s with bank := 0, busted := true } := by
  simp [simStep, hb, h0]

lemma simStep_preserves_bank (combo : Combo) (T : ℚ) :
    ∀ (s : SimState) (m : Match),
      (0 ≤ s.bank ∧ (s.busted = true → s.bank = 0)) →
      (0 ≤ (simStep combo T s m).bank ∧
        ((simStep combo T s m).busted = true → (simStep combo T s m).bank = 0)) := by
  intro s m h
  unfold simStep
  split_ifs with h1 h2 h3 h4 h5 h6 h7 h8
  · exact h
  · exact ⟨le_refl 0, fun _ => rfl⟩
  · exact h
  · exact h
  · exact h
  · exact h
  · exact h
  · have hb : s.busted = false := by simpa using h1
    have hstake : min (computeStake s.bank combo s.fibStep) (min MAX_BET s.bank) ≤ s.bank :=
      le_trans (min_le_right _ _) (min_le_right _ _)
    have hpos : 0 < min (computeStake s.bank combo s.fibStep) (min MAX_BET s.bank) :=
      not_le.mp h8
    have hodds : 1 < m.favOdds := not_le.mp h7
    rw [settleBet_bank, settleBet_busted]
    constructor
    · split_ifs with hw
      · have h1' : 0 ≤ s.bank - min (computeStake s.bank combo s.fibStep) (min MAX_BET s.bank) :=
          sub_nonneg.mpr hstake
        have h2' : 0 ≤ min (computeStake s.bank combo s.fibStep) (min MAX_BET s.bank) * m.favOdds :=
          mul_nonneg hpos.le (by linarith)
        linarith
      · exact sub_nonneg.mpr hstake
    · intro hbust
      rw [hb] at hbust
      exact absurd hbust (by simp)
  · exact h

lemma simStep_preserves_fibStep (combo : Combo) (T : ℚ) :
    ∀ (s : SimState) (m : Match),
      0 ≤ s.fibStep → 0 ≤ (simStep combo T s m).fibStep := by
  intro s m h
  unfold simStep
  split_ifs with h1 h2 h3 h4 h5 h6 h7 h8
  · exact h
  · exact h
  · exact h
  · exact h
  · exact h
  · exact h
  · exact h
  · rw [settleBet_fibStep]
    split_ifs <;> omega
  · exact h

/-! ## Claim theorems -/

/-- C1: for every match corpus and strategy configuration, the final
bankroll of a `simulateStrategy` run is never negative (and since every
prefix of a corpus is itself a corpus, this holds at every observable
point of the run); when the run busts the bankroll is clipped to exactly
0; and once busted, every remaining match leaves the state untouched. -/
theorem simulateStrategy_bank_invariant (ms : List Match) (combo : Combo) (T : ℚ) :
    0 ≤ (simulateStrategy ms combo T).bank
    ∧ ((simulateStrategy ms combo T).busted = true →
        (simulateStrategy ms combo T).bank = 0)
    ∧ (∀ (s : SimState) (m : Match), s.busted = true → simStep combo T s m = s) := by
  have hmain :=
    foldl_preserve (simStep combo T)
      (fun s => 0 ≤ s.bank ∧ (s.busted = true → s.bank = 0))
      (simStep_preserves_bank combo T) ms simInit
      ⟨by norm_num [simInit, INITIAL_BANK], by simp [simInit]⟩
  exact ⟨hmain.1, hmain.2, fun s m hb => simStep_busted combo T s m hb⟩

theorem simulateStrategy_bank_invariant_witness :
    (simulateStrategy c1Corpus c1Combo 5).busted = true
    ∧ (simulateStrategy c1Corpus c1Combo 5).bank = 0 := by
  have hb : (simulateStrategy c1Corpus c1Combo 5).busted = true := by
    norm_num +decide [simulateStrategy, List.foldl, simStep, settleBet,
      computeStake, simInit, c1Combo, c1Lose, c1Corpus, mkFlat100,
      INITIAL_BANK, MAX_BET, heroFilterSatisfied, List.replicate]
  exact ⟨hb, (simulateStrategy_bank_invariant c1Corpus c1Combo 5).2.1 hb⟩

/-- C5: in a Fibonacci-staking run, a placed bet (observable as `bets`
incrementing) sets the step counter to `max 0 (step − 2)` on a win and to
`step + 1` on a loss; the step counter of a run is never negative. -/
theorem fibStep_transition :
    (∀ (combo : Combo) (T : ℚ) (s : SimState) (m : Match),
      combo.stake_type = StakeType.fibonacci →
      (simStep combo T s m).bets = s.bets + 1 →
      ((m.winner = m.deltaFavTeam →
          (simStep combo T s m).fibStep = max 0 (s.fibStep - 2))
        ∧ (m.winner ≠ m.deltaFavTeam →
          (simStep combo T s m).fibStep = s.fibStep + 1)))
    ∧ (∀ (ms : List Match) (combo : Combo) (T : ℚ),
        0 ≤ (simulateStrategy ms combo T).fibStep) := by
  constructor
  · intro combo T s m hfib hbet
    unfold simStep at hbet ⊢
    split_ifs at hbet ⊢ with h1 h2 h3 h4 h5 h6 h7 h8
    all_goals try simp at hbet
    refine ⟨fun hw => ?_, fun hw => ?_⟩
    · rw [settleBet_fibStep, if_pos hfib, if_pos hw]
      split_ifs with hle
      · rw [max_eq_left (by omega : s.fibStep - 2 ≤ 0)]
      · rw [max_eq_right (by omega : (0:ℤ) ≤ s.fibStep - 2)]
    · rw [settleBet_fibStep, if_pos hfib, if_neg hw]
  · intro ms combo T
    exact foldl_preserve (simStep combo T) (fun s => 0 ≤ s.fibStep)
      (simStep_preserves_fibStep combo T) ms simInit (by simp [simInit])

theorem fibStep_transition_witness :
    c5Combo.stake_type = StakeType.fibonacci
    ∧ (simStep c5Combo 0 c5State c5Win).bets = c5State.bets + 1
    ∧ c5Win.winner = c5Win.deltaFavTeam
    ∧ (simStep c5Combo 0 c5State c5Win).fibStep = max 0 (c5State.fibStep - 2)
    ∧ 0 ≤ (simulateStrategy [c5Win] c5Combo 0).fibStep := by
  have hbet : (simStep c5Combo 0 c5State c5Win).bets = c5State.bets + 1 := by
    norm_num +decide [simStep, settleBet, computeStake, c5Combo, c5State,
      c5Win, simInit, mkFib, MAX_BET, INITIAL_BANK, heroFilterSatisfied,
      fibNumber, fib]
  exact ⟨rfl, hbet, rfl,
    (fibStep_transition.1 c5Combo 0 c5State c5Win rfl hbet).1 rfl,
    fibStep_transition.2 [c5Win] c5Combo 0⟩

/-! ### Threshold monotonicity (C2) -/

lemma fib_pos : ∀ n, 0 < fib n
  | 0 => by simp [fib]
  | 1 => by simp [fib]
  | n + 2 => by
    rw [fib]
    exact Nat.add_pos_left (fib_pos (n + 1)) _

lemma fibNumber_pos (z : ℤ) : 0 < fibNumber z := by
  unfold fibNumber
  split_ifs
  · norm_num
  · exact fib_pos _

lemma computeStake_pos (c : Combo) (bank : ℚ) (f : ℤ)
    (hv : validCombo c) (hb : 0 < bank) : 0 < computeStake bank c f := by
  unfold computeStake
  rw [if_neg (not_le.mpr hb)]
  unfold validCombo at hv
  cases h : c.stake_type
  · rw [h] at hv
    exact lt_min hv hb
  · rw [h] at hv
    exact lt_min (mul_pos hb hv) hb
  · rw [h] at hv
    have hfib : (0:ℚ) < (fibNumber f : ℚ) := by exact_mod_cast fibNumber_pos f
    exact mul_pos hfib hv

lemma simStep_skip (c : Combo) (T : ℚ) (s : SimState) (m : Match)
    (hbank : 0 < s.bank) (hne : eligibleFor c T m = false) :
    simStep c T s m = s := by
  unfold simStep
  split_ifs with h1 h2 h3 h4 h5 h6 h7 h8
  · rfl
  · exact absurd h2 (not_le.mpr hbank)
  · rfl
  · rfl
  · rfl
  · rfl
  · rfl
  · exfalso
    have helig : eligibleFor c T m = true := by
      simp only [eligibleFor, Bool.and_eq_true, decide_eq_true_eq]
      exact ⟨⟨⟨⟨h3, h4⟩, h5⟩, h6⟩, h7⟩
    rw [helig] at hne
    exact Bool.noConfusion hne
  · rfl

lemma simStep_bet (c : Combo) (T : ℚ) (s : SimState) (m : Match)
    (hb : s.busted = false) (hbank : 0 < s.bank)
    (he : eligibleFor c T m = true) (hv : validCombo c) :
    simStep c T s m =
      settleBet c s m (min (computeStake s.bank c s.fibStep) (min MAX_BET s.bank)) := by
  simp only [eligibleFor, Bool.and_eq_true, decide_eq_true_eq] at he
  obtain ⟨⟨⟨⟨h3, h4⟩, h5⟩, h6⟩, h7⟩ := he
  have hstake : 0 < min (computeStake s.bank c s.fibStep) (min MAX_BET s.bank) :=
    lt_min (computeStake_pos c s.bank s.fibStep hv hbank)
      (lt_min (by norm_num [MAX_BET]) hbank)
  unfold simStep
  rw [if_neg (by simp [hb]), if_neg (not_le.mpr hbank), if_neg h3, if_neg h4,
    if_neg h5, if_neg (by simp [h6]), if_neg h7, if_neg (not_le.mpr hstake)]

lemma settleBet_bank_nonneg (c : Combo) (s : SimState) (m : Match) (st : ℚ)
    (h1 : st ≤ s.bank) (h2 : 0 ≤ st) (h3 : 0 ≤ m.favOdds) :
    0 ≤ (settleBet c s m st).bank := by
  rw [settleBet_bank]
  split_ifs
  · have := mul_nonneg h2 h3
    linarith
  · exact sub_nonneg.mpr h1

lemma simStep_bets_cases (c : Combo) (T : ℚ) (s : SimState) (m : Match) :
    (simStep c T s m).bets = s.bets
    ∨ ((simStep c T s m).bets = s.bets + 1 ∧ eligibleFor c T m = true) := by
  unfold simStep
  split_ifs with h1 h2 h3 h4 h5 h6 h7 h8
  · exact Or.inl rfl
  · exact Or.inl rfl
  · exact Or.inl rfl
  · exact Or.inl rfl
  · exact Or.inl rfl
  · exact Or.inl rfl
  · exact Or.inl rfl
  · refine Or.inr ⟨settleBet_bets c s m _, ?_⟩
    simp only [eligibleFor, Bool.and_eq_true, decide_eq_true_eq]
    exact ⟨⟨⟨⟨h3, h4⟩, h5⟩, h6⟩, h7⟩
  · exact Or.inl rfl

lemma foldl_bets_le (c : Combo) (T : ℚ) :
    ∀ (ms : List Match) (s : SimState),
      (ms.foldl (simStep c T) s).bets ≤ s.bets + ms.countP (eligibleFor c T)
  | [], s => by simp
  | m :: ms, s => by
    rw [List.foldl_cons, List.countP_cons]
    have h1 := foldl_bets_le c T ms (simStep c T s m)
    rcases simStep_bets_cases c T s m with h | ⟨h, he⟩
    · rw [h] at h1
      exact le_trans h1 (Nat.add_le_add_left (Nat.le_add_right _ _) _)
    · rw [h] at h1
      rw [if_pos he]
      omega

lemma foldl_bets_exact (c : Combo) (T : ℚ) (hv : validCombo c) :
    ∀ (ms : List Match) (s : SimState),
      s.busted = false → 0 < s.bank →
      (ms.foldl (simStep c T) s).busted = false →
      (ms.foldl (simStep c T) s).bets = s.bets + ms.countP (eligibleFor c T)
  | [], s, _, _, _ => by simp
  | m :: ms, s, hb, hbank, hnb => by
    rw [List.foldl_cons] at hnb ⊢
    rw [List.countP_cons]
    by_cases he : eligibleFor c T m = true
    · rw [simStep_bet c T s m hb hbank he hv] at hnb ⊢
      have hbets' : (settleBet c s m (min (computeStake s.bank c s.fibStep) (min MAX_BET s.bank))).bets = s.bets + 1 :=
        settleBet_bets c s m _
      have hbusted' : (settleBet c s m (min (computeStake s.bank c s.fibStep) (min MAX_BET s.bank))).busted = false :=
        (settleBet_busted c s m _).trans hb
      by_cases h0 : 0 < (settleBet c s m (min (computeStake s.bank c s.fibStep) (min MAX_BET s.bank))).bank
      · rw [foldl_bets_exact c T hv ms _ hbusted' h0 hnb, hbets', if_pos he]
        omega
      · cases ms with
        | nil =>
          rw [List.foldl_nil, hbets', if_pos he]
          simp
        | cons m2 ms2 =>
          exfalso
          rw [List.foldl_cons,
            simStep_clip c T _ m2 hbusted' (not_lt.mp h0),
            foldl_simStep_frozen c T ms2 _ rfl] at hnb
          exact Bool.noConfusion hnb
    · have hne : eligibleFor c T m = false := by
        simpa using he
      rw [simStep_skip c T s m hbank hne] at hnb ⊢
      rw [foldl_bets_exact c T hv ms s hb hbank hnb, if_neg he]
      omega

lemma eligibleFor_mono (c : Combo) {T1 T2 : ℚ} (h : T1 ≤ T2) (m : Match)
    (he : eligibleFor c T2 m = true) : eligibleFor c T1 m = true := by
  simp only [eligibleFor, Bool.and_eq_true, decide_eq_true_eq] at he ⊢
  exact ⟨⟨⟨⟨fun hlt => he.1.1.1.1 (lt_of_lt_of_le hlt h),
    he.1.1.1.2⟩, he.1.1.2⟩, he.1.2⟩, he.2⟩

/-- C2 (amended): threshold monotonicity holds whenever the run at the
lower threshold does not bust: for `T1 < T2`, a positively-parameterised
strategy places at least as many bets at `T1` as at `T2`.  (The
unamended claim fails when the `T1` run busts early; see the
counterexample.) -/
theorem simulateStrategy_threshold_mono (ms : List Match) (c : Combo)
    (T1 T2 : ℚ) (hv : validCombo c) (h12 : T1 < T2)
    (hnb : (simulateStrategy ms c T1).busted = false) :
    (simulateStrategy ms c T2).bets ≤ (simulateStrategy ms c T1).bets := by
  have h1 : (simulateStrategy ms c T2).bets ≤ ms.countP (eligibleFor c T2) := by
    have h := foldl_bets_le c T2 ms simInit
    simpa [simulateStrategy, simInit] using h
  have h2 : ms.countP (eligibleFor c T2) ≤ ms.countP (eligibleFor c T1) :=
    List.countP_mono_left (fun m _ hm => eligibleFor_mono c h12.le m hm)
  have h3 : (simulateStrategy ms c T1).bets = ms.countP (eligibleFor c T1) := by
    have h := foldl_bets_exact c T1 hv ms simInit rfl
      (by norm_num [simInit, INITIAL_BANK]) hnb
    simpa [simulateStrategy, simInit] using h
  omega

/-- C2 (counterexample): with thresholds 5 < 10, flat-$100 staking and a
corpus of ten low-delta losses followed by eleven high-delta wins, the
run at threshold 5 busts after 10 bets while the run at threshold 10
places 11 bets — `bets(T2) ≤ bets(T1)` fails. -/
theorem simulateStrategy_threshold_mono_cx :
    (5:ℚ) < 10 ∧
    ¬ ((simulateStrategy c2Corpus c2Combo 10).bets ≤
        (simulateStrategy c2Corpus c2Combo 5).bets) := by
  have h10 : (simulateStrategy c2Corpus c2Combo 10).bets = 11 := by
    norm_num +decide [simulateStrategy, List.foldl, simStep, settleBet,
      computeStake, simInit, c2Combo, c2Lose, c2Win, c2Corpus, mkFlat100,
      INITIAL_BANK, MAX_BET, heroFilterSatisfied, List.replicate]
  have h5 : (simulateStrategy c2Corpus c2Combo 5).bets = 10 := by
    norm_num +decide [simulateStrategy, List.foldl, simStep, settleBet,
      computeStake, simInit, c2Combo, c2Lose, c2Win, c2Corpus, mkFlat100,
      INITIAL_BANK, MAX_BET, heroFilterSatisfied, List.replicate]
  rw [h10, h5]
  norm_num

theorem simulateStrategy_threshold_mono_witness :
    validCombo c2Combo ∧ (5:ℚ) < 6
    ∧ (simulateStrategy [c2Win] c2Combo 5).busted = false
    ∧ (simulateStrategy [c2Win] c2Combo 6).bets ≤
        (simulateStrategy [c2Win] c2Combo 5).bets := by
  have hv : validCombo c2Combo := by
    norm_num [validCombo, c2Combo, mkFlat100]
  have hnb : (simulateStrategy [c2Win] c2Combo 5).busted = false := by
    norm_num +decide [simulateStrategy, List.foldl, simStep, settleBet,
      computeStake, simInit, c2Combo, c2Win, c2Lose, mkFlat100,
      INITIAL_BANK, MAX_BET, heroFilterSatisfied]
  exact ⟨hv, by norm_num, hnb,
    simulateStrategy_threshold_mono [c2Win] c2Combo 5 6 hv (by norm_num) hnb⟩

/-! ### Numeric semantics: flooring (C3) -/

/-- C3 (counterexample): in `simulateStrategy`, a won 5%-of-bankroll bet
of 50 at odds 1.51 leaves the bankroll at 2051/2 = 1025.5 — not an
integer (`den ≠ 1`), so stakes/payouts are *not* floored before they hit
the bankroll.  Under the claim's semantics the credit would have been
`floor(50 × 1.51) = 75`, leaving the integer bankroll 1025. -/
theorem simulateStrategy_no_flooring_cx :
    (simulateStrategy [c3Match] c3Combo 5).bank = 2051/2
    ∧ ((2051:ℚ)/2).den ≠ 1
    ∧ (1000:ℚ) - 50 + ((⌊((50:ℚ) * (151/100))⌋ : ℤ) : ℚ) = 1025 := by
  refine ⟨?_, by norm_num, by norm_num⟩
  norm_num +decide [simulateStrategy, List.foldl, simStep, settleBet,
    computeStake, simInit, c3Combo, c3Match, mkPct5, INITIAL_BANK, MAX_BET,
    heroFilterSatisfied]

lemma dpSettle_bank (s : DPState) (won : Bool) (stake odds : ℚ) :
    (dpSettle s won stake odds).bank =
      s.bank - stake + (if won then ((⌊stake * odds⌋ : ℤ) : ℚ) else 0) := rfl

lemma dpSettle_bank_shape (s : DPState) (won : Bool) (stake odds : ℚ)
    (hst : ∃ a : ℤ, stake = (a : ℚ)) :
    ∃ (a b : ℤ), (dpSettle s won stake odds).bank = s.bank - (a:ℚ) + (b:ℚ) := by
  obtain ⟨a, ha⟩ := hst
  refine ⟨a, if won then ⌊stake * odds⌋ else 0, ?_⟩
  rw [dpSettle_bank, ha]
  cases won <;> simp

lemma dpStep_bank_cases (opts : ExecOpts) (s : DPState) (m : DPMatch) :
    (dpStep opts s m).bank = s.bank
    ∨ ∃ (a b : ℤ), (dpStep opts s m).bank = s.bank - (a:ℚ) + (b:ℚ) := by
  unfold dpStep
  cases hd : m.delta with
  | none => split_ifs <;> exact Or.inl rfl
  | some d =>
    cases ho1 : m.team1Odds <;> cases ho2 : m.team2Odds <;>
      dsimp only <;> split_ifs <;> (try dsimp only) <;> (try split_ifs) <;>
      first
        | exact Or.inl rfl
        | exact Or.inr (dpSettle_bank_shape s _ _ _
            ⟨⌊dpStakeClipped opts s.bank d⌋, rfl⟩)

lemma dpStep_bank_integral (opts : ExecOpts) (s : DPState) (m : DPMatch)
    (h : ∃ z : ℤ, s.bank = (z : ℚ)) :
    ∃ z : ℤ, (dpStep opts s m).bank = (z : ℚ) := by
  obtain ⟨z, hz⟩ := h
  rcases dpStep_bank_cases opts s m with h0 | ⟨a, b, h0⟩
  · exact ⟨z, h0.trans hz⟩
  · exact ⟨z - a + b, by rw [h0, hz]; push_cast; ring⟩

lemma dpsSettle_bank (s : DPSState) (won : Bool) (stake odds : ℚ) :
    (dpsSettle s won stake odds).bank =
      s.bank - stake + (if won then ((⌊stake * odds⌋ : ℤ) : ℚ) else 0) := rfl

lemma dpsSettle_bank_shape (s : DPSState) (won : Bool) (stake odds : ℚ)
    (hst : ∃ a : ℤ, stake = (a : ℚ)) :
    ∃ (a b : ℤ), (dpsSettle s won stake odds).bank = s.bank - (a:ℚ) + (b:ℚ) := by
  obtain ⟨a, ha⟩ := hst
  refine ⟨a, if won then ⌊stake * odds⌋ else 0, ?_⟩
  rw [dpsSettle_bank, ha]
  cases won <;> simp

lemma runStep_bank_cases (s : DPSState) (m : DPMatch) :
    (runStep s m).bank = s.bank
    ∨ ∃ (a b : ℤ), (runStep s m).bank = s.bank - (a:ℚ) + (b:ℚ) := by
  unfold runStep
  cases hd : m.delta with
  | none => split_ifs <;> exact Or.inl rfl
  | some d =>
    cases ho1 : m.team1Odds <;> cases ho2 : m.team2Odds <;>
      dsimp only <;> split_ifs <;> (try dsimp only) <;> (try split_ifs) <;>
      first
        | exact Or.inl rfl
        | exact Or.inr (dpsSettle_bank_shape s _ _ _
            ⟨⌊dpsStakeClipped s.bank d⌋, rfl⟩)

lemma runStep_bank_integral (s : DPSState) (m : DPMatch)
    (h : ∃ z : ℤ, s.bank = (z : ℚ)) :
    ∃ z : ℤ, (runStep s m).bank = (z : ℚ) := by
  obtain ⟨z, hz⟩ := h
  rcases runStep_bank_cases s m with h0 | ⟨a, b, h0⟩
  · exact ⟨z, h0.trans hz⟩
  · exact ⟨z - a + b, by rw [h0, hz]; push_cast; ring⟩

/-- C3 (amended): in both delta-pct simulators — `execute` of
`run_delta_pct_custom.js` (`dpStep`) and `run` of
`delta_pct_strategy.js` (`runStep`) — the stake is floored to an integer
before it is debited and a win credits `floor(stake × favoredOdds)`;
consequently an integral bankroll stays integral across every step of
either simulator.  (`simulateStrategy` has no such flooring — see the
counterexample.) -/
theorem deltaPct_bank_integral :
    (∀ (opts : ExecOpts) (s : DPState) (m : DPMatch),
      (∃ z : ℤ, s.bank = (z : ℚ)) →
      ∃ z : ℤ, (dpStep opts s m).bank = (z : ℚ))
    ∧ (∀ (s : DPSState) (m : DPMatch),
      (∃ z : ℤ, s.bank = (z : ℚ)) →
      ∃ z : ℤ, (runStep s m).bank = (z : ℚ)) :=
  ⟨dpStep_bank_integral, runStep_bank_integral⟩

theorem deltaPct_bank_integral_witness :
    (∃ z : ℤ, dpInit.bank = (z : ℚ))
    ∧ (∃ z : ℤ, (dpStep c3Opts dpInit c3DPMatch).bank = (z : ℚ))
    ∧ (∃ z : ℤ, dpsInit.bank = (z : ℚ))
    ∧ (∃ z : ℤ, (runStep dpsInit c3DPMatch).bank = (z : ℚ)) :=
  ⟨⟨1000, by norm_num [dpInit, START_BANK]⟩,
    deltaPct_bank_integral.1 c3Opts dpInit c3DPMatch
      ⟨1000, by norm_num [dpInit, START_BANK]⟩,
    ⟨1000, by norm_num [dpsInit, START_BANK]⟩,
    deltaPct_bank_integral.2 dpsInit c3DPMatch
      ⟨1000, by norm_num [dpsInit, START_BANK]⟩⟩

/-! ### Advantage-matrix orientation (C4) -/

/-- C4: `computeAdvantage` (used for the hero-filter counts of
`download_recent_matches.js`) reads `winRates[enemy][hero]` — the
transposed cell — so on a matrix with `cell[0][1].advantage = 3` and
`cell[1][0].advantage = −3` it returns −3 for hero 0 against enemy 1,
while the spec's `matrix[hero][opp]` sum (and `heroScore` of the
delta-pct simulators, which follows it) gives +3; the positive/negative
team counts come out inverted as (0, 1) instead of (1, 0). -/
theorem computeAdvantage_transposed :
    computeAdvantage 0 [1] c4Matrix = -3
    ∧ specHeroAdvantage 0 [1] c4Matrix = 3
    ∧ computeAdvantage 0 [1] c4Matrix ≠ specHeroAdvantage 0 [1] c4Matrix
    ∧ computeTeamCounts [0] [1] c4Matrix = (0, 1)
    ∧ specTeamCounts [0] [1] c4Matrix = (1, 0)
    ∧ heroScore [50, 50] c4Matrix 0 [1] = 50 + 3 := by
  refine ⟨?_, ?_, ?_, ?_, ?_, ?_⟩ <;>
    norm_num +decide [computeAdvantage, specHeroAdvantage, computeTeamCounts,
      specTeamCounts, heroScore, cellAdv, c4Matrix, List.foldl]

/-! ### Strategy enumeration (C6) -/

/-- C6 (counterexample): `buildCombos` emits 36 configurations, not the
45 of the full 5-policy × 3-filter × 3-odds cross-product the claim
describes; in particular no `Pct5` configuration with the `4+4-` hero
filter exists, and the emitted order interleaves policies and filters. -/
theorem buildCombos_not_cross_product :
    buildCombos.length = 36
    ∧ buildCombosSpec.length = 45
    ∧ buildCombos ≠ buildCombosSpec
    ∧ (buildCombos.all fun c =>
        !(c.strategy_group == "Pct5" && c.hero_filter == HeroFilter.fourFour)) = true := by
  refine ⟨by decide, by decide, ?_, by decide⟩
  exact fun h => absurd (congrArg List.length h) (by decide)

/-- C6 (amended): `buildCombos` equals the 12 fixed (policy, hero-filter)
pairs of `comboTemplates` — in its interleaved push order — each crossed
with the three odds conditions `[any, underdog, favorite]`; the threshold
sweep list is strictly ascending and is applied combo-major by `main`. -/
theorem buildCombos_structure :
    buildCombos = buildCombosAmended
    ∧ List.Chain' (· < ·) DELTA_THRESHOLDS
    ∧ strategyPairs =
        buildCombos.flatMap fun c => DELTA_THRESHOLDS.map fun t => (c, t) :=
  ⟨rfl, by norm_num [DELTA_THRESHOLDS, List.chain'_cons], rfl⟩

/-! ### The ignored delta threshold of the delta-pct CLI (C8) -/

/-- C8: `run_delta_pct_custom_cli20.js` configures `minDelta: 20`, yet
`execute` never reads it: on a single match with |delta| = 10 < 20 the
run still places a bet (bets = 1) and changes the bankroll — the
sub-threshold match is not skipped.  (`simulateStrategy`'s own threshold
guard does skip with no state change; see `simStep_skip`.) -/
theorem execute_ignores_minDelta :
    |(10:ℚ)| < c8Opts.minDelta
    ∧ (execute c8Opts [c8Match]).bets = 1
    ∧ (execute c8Opts [c8Match]).bank = 990
    ∧ (∀ (s : SimState) (m : Match) (combo : Combo) (T : ℚ),
        s.busted = false → 0 < s.bank → m.deltaAbs < T →
        simStep combo T s m = s) := by
  refine ⟨by norm_num [c8Opts], ?_, ?_, ?_⟩
  · norm_num +decide [execute, List.foldl, dpStep, dpSettle, dpStake,
      dpStakeClipped, dpPct, dpInit, c8Opts, c8Match, START_BANK]
  · norm_num +decide [execute, List.foldl, dpStep, dpSettle, dpStake,
      dpStakeClipped, dpPct, dpInit, c8Opts, c8Match, START_BANK]
  · intro s m combo T hb hbank hlt
    unfold simStep
    rw [if_neg (by simp [hb]), if_neg (not_le.mpr hbank), if_pos hlt]

/-! ### Matrix symmetry (C9) -/

lemma pairUpdate_games (p : PairStats) (r d : ℕ) (w : Bool) (i j : ℕ) :
    (pairUpdate p r d w i j).1 =
      (p i j).1 + (if i = r ∧ j = d then 1 else 0)
        + (if i = d ∧ j = r then 1 else 0) := by
  unfold pairUpdate bumpCell
  split_ifs <;> omega

lemma ite_and_comm (a b : Prop) [Decidable a] [Decidable b] [Decidable (a ∧ b)]
    [Decidable (b ∧ a)] (x y : ℕ) :
    (if a ∧ b then x else y) = if b ∧ a then x else y := by
  by_cases h : a ∧ b
  · rw [if_pos h, if_pos ⟨h.2, h.1⟩]
  · rw [if_neg h, if_neg (fun h2 => h ⟨h2.2, h2.1⟩)]

lemma pairUpdate_preserves_symm (r d : ℕ) (w : Bool) (p : PairStats)
    (h : ∀ i j, (p i j).1 = (p j i).1) :
    ∀ i j, (pairUpdate p r d w i j).1 = (pairUpdate p r d w j i).1 := by
  intro i j
  rw [pairUpdate_games, pairUpdate_games, h i j,
    ite_and_comm (i = r) (j = d), ite_and_comm (i = d) (j = r)]
  exact Nat.add_right_comm _ _ _

lemma ingestPairs_preserves_symm (radiant dire : List ℕ) (w : Bool)
    (p : PairStats) (h : ∀ i j, (p i j).1 = (p j i).1) :
    ∀ i j, (ingestPairs p radiant dire w i j).1 = (ingestPairs p radiant dire w j i).1 := by
  unfold ingestPairs
  exact foldl_preserve _ (fun q => ∀ i j, (q i j).1 = (q j i).1)
    (fun q r hq =>
      foldl_preserve _ (fun q2 => ∀ i j, (q2 i j).1 = (q2 j i).1)
        (fun q2 d2 hq2 => pairUpdate_preserves_symm r d2 w q2 hq2) dire q hq)
    radiant p h

/-- C9: the pair grid built by `buildMatrix` is games-symmetric —
`games[i][j] = games[j][i]` for every corpus and hero map — and each
valid match's inner-loop body increments both directions of a
radiant-hero/dire-hero pair by exactly one game. -/
theorem buildPairStats_symm :
    (∀ (hm : ℕ → Option ℕ) (ms : List StratzMatch) (i j : ℕ),
      (buildPairStats hm ms i j).1 = (buildPairStats hm ms j i).1)
    ∧ (∀ (p : PairStats) (r d : ℕ) (w : Bool), r ≠ d →
        (pairUpdate p r d w r d).1 = (p r d).1 + 1
        ∧ (pairUpdate p r d w d r).1 = (p d r).1 + 1) := by
  constructor
  · intro hm ms i j
    refine foldl_preserve _ (fun q => ∀ i j, (q i j).1 = (q j i).1)
      (fun q m hq => ?_) ms (fun _ _ => (0, 0)) (fun _ _ => rfl) i j
    cases normalizeHeroIds m.radiantRoles hm with
    | none => exact hq
    | some rs =>
      cases normalizeHeroIds m.direRoles hm with
      | none => exact hq
      | some ds => exact ingestPairs_preserves_symm rs ds m.radiantWin q hq
  · intro p r d w hrd
    constructor
    · rw [pairUpdate_games, if_pos ⟨rfl, rfl⟩, if_neg (fun h2 => hrd h2.1)]
    · rw [pairUpdate_games, if_neg (fun h2 => hrd h2.2), if_pos ⟨rfl, rfl⟩]

theorem buildPairStats_symm_witness :
    (pairUpdate zeroPS 0 1 true 0 1).1 = (zeroPS 0 1).1 + 1
    ∧ (pairUpdate zeroPS 0 1 true 1 0).1 = (zeroPS 1 0).1 + 1 :=
  buildPairStats_symm.2 zeroPS 0 1 true (by norm_num)

/-! ### Fibonacci memoization (C10) -/

lemma growFibCache_length : ∀ (n : ℕ) (c : List ℕ),
    (growFibCache n c).length = c.length + n
  | 0, c => rfl
  | n + 1, c => by
    rw [growFibCache, growFibCache_length n]
    simp
    omega

lemma fib_add_two (k : ℕ) : fib (k + 2) = fib (k + 1) + fib k := rfl

lemma isFibPrefix_push (c : List ℕ) (hc : IsFibPrefix c) :
    IsFibPrefix (c ++ [c.getD (c.length - 1) 0 + c.getD (c.length - 2) 0]) := by
  obtain ⟨hlen, hval⟩ := hc
  constructor
  · simp
    omega
  · intro i hi
    simp only [List.length_append, List.length_cons, List.length_nil] at hi
    rcases lt_or_ge i c.length with hlt | hge
    · rw [List.getD_append _ _ _ _ hlt]
      exact hval i hlt
    · have hieq : i = c.length := by omega
      rw [List.getD_append_right _ _ _ _ (by omega), hieq]
      obtain ⟨k, hk⟩ : ∃ k, c.length = k + 2 :=
        ⟨c.length - 2, by omega⟩
      rw [Nat.sub_self, hk]
      have h1 : k + 2 - 1 = k + 1 := by omega
      have h2 : k + 2 - 2 = k := by omega
      rw [h1, h2, hval (k + 1) (by omega), hval k (by omega)]
      exact (fib_add_two k).symm

lemma growFibCache_isFib : ∀ (n : ℕ) (c : List ℕ),
    IsFibPrefix c → IsFibPrefix (growFibCache n c)
  | 0, _, hc => hc
  | n + 1, c, hc => by
    rw [growFibCache]
    exact growFibCache_isFib n _ (isFibPrefix_push c hc)

lemma getFibNumber_isFib_correct (n : ℤ) (c : List ℕ)
    (hc : IsFibPrefix c) (hn : 0 ≤ n) :
    (getFibNumber n c).1 = fib n.toNat ∧ IsFibPrefix (getFibNumber n c).2 := by
  unfold getFibNumber
  split_ifs with h
  · have h0 : n = 0 := le_antisymm h hn
    subst h0
    exact ⟨rfl, hc⟩
  · have hp := growFibCache_isFib ((n + 1).toNat - c.length) c hc
    have hlen : n.toNat < (growFibCache ((n + 1).toNat - c.length) c).length := by
      rw [growFibCache_length]
      have := hp.1
      omega
    exact ⟨hp.2 n.toNat hlen, hp⟩

lemma reachableIsFib (c : List ℕ) (h : FibCacheReachable c) : IsFibPrefix c := by
  induction h with
  | init =>
    refine ⟨by norm_num [fibCacheInit], ?_⟩
    intro i hi
    norm_num [fibCacheInit] at hi
    interval_cases i <;> rfl
  | call n hc ih =>
    unfold getFibNumber
    split_ifs with h0
    · exact ih
    · exact growFibCache_isFib _ _ ih

/-- C10: for every step `n ≥ 0` and every memo array reachable by any
prior sequence of `getFibNumber` calls, `getFibNumber` returns the
standard Fibonacci value `fib n` (1, 1, 2, 3, 5, …) — equal to the pure
`fibNumber` the simulator model uses — and leaves a reachable cache, so
sharing the memo table across strategy runs never changes a result. -/
theorem getFibNumber_correct (n : ℤ) (cache : List ℕ) (hn : 0 ≤ n)
    (hc : FibCacheReachable cache) :
    (getFibNumber n cache).1 = fib n.toNat
    ∧ (getFibNumber n cache).1 = fibNumber n
    ∧ FibCacheReachable (getFibNumber n cache).2 := by
  have h1 := getFibNumber_isFib_correct n cache (reachableIsFib cache hc) hn
  refine ⟨h1.1, ?_, FibCacheReachable.call n hc⟩
  rw [h1.1]
  unfold fibNumber
  split_ifs with h0
  · have : n = 0 := le_antisymm h0 hn
    subst this
    rfl
  · rfl

theorem getFibNumber_correct_witness :
    (0:ℤ) ≤ 5 ∧ FibCacheReachable ((getFibNumber 7 fibCacheInit).2)
    ∧ (getFibNumber 5 (getFibNumber 7 fibCacheInit).2).1 = fib (5:ℤ).toNat :=
  ⟨by norm_num, FibCacheReachable.call 7 FibCacheReachable.init,
    (getFibNumber_correct 5 (getFibNumber 7 fibCacheInit).2 (by norm_num)
      (FibCacheReachable.call 7 FibCacheReachable.init)).1⟩

/-! ### Unresolved heroes skip the whole match (C7) -/

lemma processRow_split (idx : List (String × ℕ)) (wr : List (List (Option ℚ)))
    (acc : List Match × SkipCounters) (r : RawRow) :
    (processRow idx wr acc r).1 = acc.1 ++ rowMatch idx wr r
    ∧ (processRow idx wr acc r).2.heroLookup =
        acc.2.heroLookup + rowHL idx wr r := by
  rcases hd : r.delta with _ | d
  · constructor <;> simp [processRow, rowMatch, rowHL, hd, zeroSkips]
  · by_cases h5 : r.team1Heroes.length ≠ 5 ∨ r.team2Heroes.length ≠ 5
    · constructor <;> simp [processRow, rowMatch, rowHL, hd, h5, zeroSkips]
    · rcases h1 : heroNamesToIds r.team1Heroes idx with _ | t1
      · constructor <;>
          simp [processRow, rowMatch, rowHL, hd, h5, h1, zeroSkips]
      · rcases h2 : heroNamesToIds r.team2Heroes idx with _ | t2
        · constructor <;>
            simp [processRow, rowMatch, rowHL, hd, h5, h1, h2, zeroSkips]
        · by_cases hempty : r.deltaFavTeam = "" ∨ r.team1Name = "" ∨ r.team2Name = ""
          · constructor <;>
              simp [processRow, rowMatch, rowHL, hd, h5, h1, h2, hempty, zeroSkips]
          · by_cases hfav : r.team1Name = r.deltaFavTeam ∨ r.team2Name = r.deltaFavTeam
            · rcases ho1 : r.team1Odds with _ | o1
              · constructor <;>
                  simp [processRow, rowMatch, rowHL, hd, h5, h1, h2, hempty,
                    hfav, ho1, zeroSkips]
              · rcases ho2 : r.team2Odds with _ | o2
                · constructor <;>
                    simp [processRow, rowMatch, rowHL, hd, h5, h1, h2, hempty,
                      hfav, ho1, ho2, zeroSkips]
                · by_cases hodds : o1 ≤ 1 ∨ o2 ≤ 1
                  · constructor <;>
                      simp [processRow, rowMatch, rowHL, hd, h5, h1, h2, hempty,
                        hfav, ho1, ho2, hodds, zeroSkips]
                  · constructor <;>
                      simp [processRow, rowMatch, rowHL, hd, h5, h1, h2, hempty,
                        hfav, ho1, ho2, hodds, zeroSkips]
            · constructor <;>
                simp [processRow, rowMatch, rowHL, hd, h5, h1, h2, hempty,
                  hfav, zeroSkips]

lemma loadAcc_fst (idx : List (String × ℕ)) (wr : List (List (Option ℚ))) :
    ∀ (l : List RawRow) (acc : List Match × SkipCounters),
      (l.foldl (processRow idx wr) acc).1 = acc.1 ++ l.flatMap (rowMatch idx wr)
  | [], acc => by simp
  | r :: l, acc => by
    rw [List.foldl_cons, loadAcc_fst idx wr l _,
      (processRow_split idx wr acc r).1]
    simp

lemma loadAcc_hl (idx : List (String × ℕ)) (wr : List (List (Option ℚ))) :
    ∀ (l : List RawRow) (acc : List Match × SkipCounters),
      (l.foldl (processRow idx wr) acc).2.heroLookup =
        acc.2.heroLookup + (l.map (rowHL idx wr)).sum
  | [], acc => by simp
  | r :: l, acc => by
    rw [List.foldl_cons, loadAcc_hl idx wr l _,
      (processRow_split idx wr acc r).2]
    simp
    omega

lemma rowMatch_unresolved (idx : List (String × ℕ)) (wr : List (List (Option ℚ)))
    (r : RawRow) (hd : r.delta ≠ none)
    (h5a : r.team1Heroes.length = 5) (h5b : r.team2Heroes.length = 5)
    (hun : heroNamesToIds r.team1Heroes idx = none
      ∨ heroNamesToIds r.team2Heroes idx = none) :
    rowMatch idx wr r = [] ∧ rowHL idx wr r = 1 := by
  unfold rowMatch rowHL processRow
  rcases hd2 : r.delta with _ | d
  · exact absurd hd2 hd
  · dsimp only
    rw [if_neg (by simp [h5a, h5b])]
    rcases h1 : heroNamesToIds r.team1Heroes idx with _ | t1
    · exact ⟨rfl, rfl⟩
    · rcases h2 : heroNamesToIds r.team2Heroes idx with _ | t2
      · exact ⟨rfl, rfl⟩
      · rcases hun with h | h
        · rw [h1] at h
          exact absurd h (by simp)
        · rw [h2] at h
          exact absurd h (by simp)

/-- C7: a row that reaches hero resolution (finite delta, two five-hero
sides) and contains an unresolvable hero name contributes no match at
all — the output match list is exactly that of the corpus without the
row — while the `heroLookup` skip counter is incremented by one and all
other rows are processed as before (the batch is never aborted). -/
theorem loadMatches_unresolved_skip (idx : List (String × ℕ))
    (wr : List (List (Option ℚ))) (l1 : List RawRow) (r : RawRow)
    (l2 : List RawRow) (hd : r.delta ≠ none)
    (h5a : r.team1Heroes.length = 5) (h5b : r.team2Heroes.length = 5)
    (hun : heroNamesToIds r.team1Heroes idx = none
      ∨ heroNamesToIds r.team2Heroes idx = none) :
    (loadMatches idx wr (l1 ++ r :: l2)).1 = (loadMatches idx wr (l1 ++ l2)).1
    ∧ (loadMatches idx wr (l1 ++ r :: l2)).2.heroLookup =
        (loadMatches idx wr (l1 ++ l2)).2.heroLookup + 1 := by
  obtain ⟨hrm, hhl⟩ := rowMatch_unresolved idx wr r hd h5a h5b hun
  unfold loadMatches
  rw [loadAcc_fst, loadAcc_fst, loadAcc_hl, loadAcc_hl]
  constructor
  · simp [hrm]
  · simp [hhl]
    omega

theorem loadMatches_unresolved_skip_witness :
    c7BadRow.delta ≠ none
    ∧ c7BadRow.team1Heroes.length = 5
    ∧ c7BadRow.team2Heroes.length = 5
    ∧ heroNamesToIds c7BadRow.team2Heroes c7Index = none
    ∧ (loadMatches c7Index [] ([] ++ c7BadRow :: [c7GoodRow])).1 =
        (loadMatches c7Index [] ([] ++ [c7GoodRow])).1
    ∧ (loadMatches c7Index [] ([] ++ c7BadRow :: [c7GoodRow])).2.heroLookup =
        (loadMatches c7Index [] ([] ++ [c7GoodRow])).2.heroLookup + 1 := by
  have hun : heroNamesToIds c7BadRow.team2Heroes c7Index = none := by decide
  have h := loadMatches_unresolved_skip c7Index [] [] c7BadRow [c7GoodRow]
    (by decide) (by decide) (by decide) (Or.inr hun)
  exact ⟨by decide, by decide, by decide, hun, h.1, h.2⟩

end DfTest
